import Mathlib

/-
Verification development for the pgi override layer
(src/pgi/overrides/__init__.py).

The Python module is embedded shallowly:

* Python dicts and module/instance dictionaries (which preserve insertion
  order) are modelled as association lists over String keys, with a
  lookup that returns the first matching entry, an insert-or-replace
  operation, and a key-removal operation.
* Python values that flow through the utilities are modelled by the
  inductive type PyVal (None, bool, int, str, tuple).
* Attribute access on the proxy module follows the data-descriptor
  protocol that the source relies on: a descriptor installed on the
  proxy type takes precedence over the instance dictionary, and a miss
  falls back, like OverridesProxyModule.__getattr__, to the wrapped
  introspection module.
* Raised exceptions are modelled with Except; emitted warnings are
  returned as explicit lists of message strings.
-/

namespace PgiOverrides

/-! ## Association-list dictionaries (Python dict semantics) -/

/-- Lookup of a key in an insertion-ordered dictionary: first match wins. -/
def alookup {α : Type} : List (String × α) → String → Option α
  | [], _ => none
  | (k, v) :: rest, key => if k = key then some v else alookup rest key

/-- Python dict assignment d[k] = v: replace the existing entry in place,
or append a new entry at the end. -/
def dictSet {α : Type} : List (String × α) → String → α → List (String × α)
  | [], k, v => [(k, v)]
  | (k0, v0) :: rest, k, v =>
    if k0 = k then (k, v) :: rest else (k0, v0) :: dictSet rest k v

/-- Python dict deletion d.pop(k): drop the entry for k. -/
def removeKey {α : Type} : List (String × α) → String → List (String × α)
  | [], _ => []
  | (k0, v0) :: rest, k =>
    if k0 = k then removeKey rest k else (k0, v0) :: removeKey rest k

/-- Python dict.update: fold dictSet over the new entries in order. -/
def dictUpdate {α : Type} : List (String × α) → List (String × α) → List (String × α)
  | d, [] => d
  | d, (k, v) :: rest => dictUpdate (dictSet d k v) rest

theorem alookup_dictSet_self {α : Type} (d : List (String × α)) (k : String) (v : α) :
    alookup (dictSet d k v) k = some v := by
  induction d with
  | nil => simp [dictSet, alookup]
  | cons hd tl ih =>
    obtain ⟨k0, v0⟩ := hd
    by_cases h : k0 = k
    · simp [dictSet, h, alookup]
    · simp [dictSet, h, alookup, ih]

theorem alookup_dictSet_ne {α : Type} (d : List (String × α)) (k k' : String) (v : α)
    (h : k' ≠ k) : alookup (dictSet d k v) k' = alookup d k' := by
  induction d with
  | nil => simp [dictSet, alookup, Ne.symm h]
  | cons hd tl ih =>
    obtain ⟨k0, v0⟩ := hd
    by_cases h0 : k0 = k
    · subst h0
      simp [dictSet, alookup, Ne.symm h]
    · simp only [dictSet, if_neg h0, alookup]
      by_cases h1 : k0 = k'
      · simp [h1]
      · simp [h1, ih]

theorem alookup_removeKey_self {α : Type} (d : List (String × α)) (k : String) :
    alookup (removeKey d k) k = none := by
  induction d with
  | nil => simp [removeKey, alookup]
  | cons hd tl ih =>
    obtain ⟨k0, v0⟩ := hd
    by_cases h : k0 = k
    · simp [removeKey, h, ih]
    · simp [removeKey, h, alookup, ih]

theorem alookup_removeKey_ne {α : Type} (d : List (String × α)) (k k' : String)
    (h : k' ≠ k) : alookup (removeKey d k) k' = alookup d k' := by
  induction d with
  | nil => simp [removeKey]
  | cons hd tl ih =>
    obtain ⟨k0, v0⟩ := hd
    by_cases h0 : k0 = k
    · subst h0
      simp [removeKey, alookup, Ne.symm h, ih]
    · simp only [removeKey, if_neg h0, alookup]
      by_cases h1 : k0 = k'
      · simp [h1]
      · simp [h1, ih]

/-! ## Python values and truthiness -/

/-- Python values that flow through the override utilities. -/
inductive PyVal where
  | none
  | pybool (b : Bool)
  | pyint (n : Int)
  | pystr (s : String)
  | pytuple (vs : List PyVal)

/-- Python truthiness for the modelled values. -/
def truthy : PyVal → Bool
  | .none => false
  | .pybool b => b
  | .pyint n => n != 0
  | .pystr s => s != ""
  | .pytuple vs => !vs.isEmpty

/-- Python str() of a value, as used by percent-s formatting in the
warning messages. Tuples render their elements with str rather than
repr; only scalar defaults are rendered by the code under proof. -/
def pyStr : PyVal → String
  | .none => "None"
  | .pybool true => "True"
  | .pybool false => "False"
  | .pyint n => toString n
  | .pystr s => s
  | .pytuple vs =>
    "(" ++ String.intercalate ", " (vs.attach.map fun v => pyStr v.1) ++ ")"
decreasing_by
  have hlt := List.sizeOf_lt_of_mem v.2
  simp only [PyVal.pytuple.sizeOf_spec] at *
  omega

/-! ## strip_boolean_result (source lines 290 to 309) -/

/-- Result of calling the wrapper made by strip_boolean_result: either a
returned value or a raised exception (exception class name and message). -/
inductive StripResult where
  | ok (v : PyVal)
  | raised (excName : String) (msg : String)

/-- Behaviour of the wrapper returned by strip_boolean_result, as a
function of the tuple ret that the wrapped method returned. exc_type is
the optional exception class (modelled by its name), exc_str the optional
message, fail_ret the failure return value (default None in the source).
An empty ret models the IndexError that ret[0] would raise. -/
def strip_boolean_result (exc_type : Option String) (exc_str : Option String)
    (fail_ret : PyVal) (ret : List PyVal) : StripResult :=
  match ret with
  | [] => .raised "IndexError" "tuple index out of range"
  | flag :: rest =>
    if truthy flag then
      if ret.length = 2 then
        .ok (rest.headD .none)
      else
        .ok (.pytuple rest)
    else
      match exc_type with
      | some et =>
        .raised et
          (match exc_str with
           | some s => if s = "" then "call failed" else s
           | Option.none => "call failed")
      | Option.none => .ok fail_ret

/-- C3: the normalizer on a wrapped callable: a result (True, 7) is
returned as the bare 7; (True, 7, 8) as the tuple (7, 8) in order; a
falsy-flag result with no failure kind configured returns fail_ret (whose
source default is None); with a failure kind configured it raises that
kind, with exc_str as the message when given (and truthy), else the
generic default message. -/
theorem strip_boolean_result_scenarios
    (exc_type : Option String) (exc_str : Option String) (fail_ret : PyVal)
    (et : String) (flag : PyVal) (rest : List PyVal)
    (hflag : truthy flag = false) :
    strip_boolean_result exc_type exc_str fail_ret [.pybool true, .pyint 7]
        = .ok (.pyint 7)
    ∧ strip_boolean_result exc_type exc_str fail_ret
        [.pybool true, .pyint 7, .pyint 8] = .ok (.pytuple [.pyint 7, .pyint 8])
    ∧ strip_boolean_result Option.none exc_str fail_ret (flag :: rest) = .ok fail_ret
    ∧ strip_boolean_result (some et) Option.none fail_ret (flag :: rest)
        = .raised et "call failed"
    ∧ (∀ msg, msg ≠ "" →
        strip_boolean_result (some et) (some msg) fail_ret (flag :: rest)
          = .raised et msg) := by
  refine ⟨by simp [strip_boolean_result, truthy], by simp [strip_boolean_result, truthy],
    ?_, ?_, ?_⟩
  · simp [strip_boolean_result, hflag]
  · simp [strip_boolean_result, hflag]
  · intro msg hmsg
    simp [strip_boolean_result, hflag, hmsg]

/-- Witness for C3 at flag (False : bool) and rest = [], message "boom". -/
theorem strip_boolean_result_scenarios_witness :
    truthy (.pybool false) = false
    ∧ ("boom" ≠ ""
      ∧ strip_boolean_result (some "ValueError") (some "boom") PyVal.none
          [.pybool false] = .raised "ValueError" "boom") :=
  ⟨by decide,
   ⟨by decide,
    (strip_boolean_result_scenarios (some "ValueError") (some "boom") PyVal.none
      "ValueError" (.pybool false) [] (by decide)).2.2.2.2 "boom" (by decide)⟩⟩

/-- C9: a success result with zero outputs, such as the one-element tuple
(True,), makes the wrapper return the empty remainder slice ret[1:], that
is the empty tuple, never the failure value and without raising. -/
theorem strip_boolean_result_empty_success
    (exc_type : Option String) (exc_str : Option String) (fail_ret : PyVal)
    (flag : PyVal) (hflag : truthy flag = true) :
    strip_boolean_result exc_type exc_str fail_ret [flag] = .ok (.pytuple []) := by
  simp [strip_boolean_result, hflag]

/-- Witness for C9 at the concrete input (True,). -/
theorem strip_boolean_result_empty_success_witness :
    truthy (.pybool true) = true
    ∧ strip_boolean_result Option.none Option.none PyVal.none [.pybool true]
        = .ok (.pytuple []) :=
  ⟨by decide,
   strip_boolean_result_empty_success Option.none Option.none PyVal.none
     (.pybool true) (by decide)⟩

/-! ## deprecated_init (source lines 206 to 287) -/

/-- Insertion of a string into a list, keeping ascending order; used to
model the sorted builtin applied to used alias and default names. -/
def insertStr (s : String) : List String → List String
  | [] => [s]
  | x :: xs => if s < x then s :: x :: xs else x :: insertStr s xs

/-- Python sorted() on a list of strings. -/
def sortStrings (l : List String) : List String := l.foldr insertStr []

/-- Python ", ".join. -/
def joinComma (l : List String) : String := String.intercalate ", " l

/-- Warning text emitted for positional-argument use, from source lines
242 to 245, with names standing for arg_names[:len(args)]. -/
def positionalWarning (names : List String) : String :=
  "Using positional arguments with the GObject constructor has been deprecated. "
  ++ "Please specify keyword(s) for \"" ++ joinComma names
  ++ "\" or use a class specific constructor. "
  ++ "See: https://wiki.gnome.org/PyGObject/InitializerDeprecations"

/-- Warning text emitted for deprecated alias use, from source lines 260
to 264: the alias spellings of the sorted used keys, then the sorted keys. -/
def aliasWarning (deprecated_aliases : List (String × String))
    (aliases_used : List String) : String :=
  "The keyword(s) \""
  ++ joinComma ((sortStrings aliases_used).map
      (fun k => (alookup deprecated_aliases k).getD ""))
  ++ "\" have been deprecated in favor of \""
  ++ joinComma (sortStrings aliases_used)
  ++ "\" respectively. See: https://wiki.gnome.org/PyGObject/InitializerDeprecations"

/-- Warning text emitted for deprecated non-standard defaults, from source
lines 274 to 278, listing key=value pairs for the sorted used keys. -/
def defaultsWarning (deprecated_defaults : List (String × PyVal))
    (defaults_used : List String) : String :=
  "Initializer is relying on deprecated non-standard defaults. "
  ++ "Please update to explicitly use: "
  ++ joinComma ((sortStrings defaults_used).map
      (fun k => k ++ "=" ++ pyStr ((alookup deprecated_defaults k).getD .none)))
  ++ " See: https://wiki.gnome.org/PyGObject/InitializerDeprecations"

/-- Step one of new_init (source lines 241 to 250): when positional
arguments are present, emit the positional warning naming
arg_names[:len(args)] and synthesize keywords via dict(zip(arg_names,
args)); otherwise start from the empty dict with no warning. -/
def positionalStage (arg_names : List String) (args : List PyVal) :
    List String × List (String × PyVal) :=
  match args with
  | [] => ([], [])
  | _ :: _ =>
    ([positionalWarning (arg_names.take args.length)],
     dictUpdate [] (arg_names.zip args))

/-- The alias loop of new_init (source lines 253 to 257): for each
(key, alias) pair in order, when alias is among the keywords, pop it,
store its value under key, and record key as used. -/
def aliasLoop : List (String × String) →
    List (String × PyVal) × List String → List (String × PyVal) × List String
  | [], st => st
  | (key, aliasName) :: rest, (nk, used) =>
    match alookup nk aliasName with
    | some v => aliasLoop rest (dictSet (removeKey nk aliasName) key v, used ++ [key])
    | Option.none => aliasLoop rest (nk, used)

/-- The defaults loop of new_init (source lines 267 to 271): inject each
default whose key is absent and record it as used. -/
def defaultsLoop : List (String × PyVal) →
    List (String × PyVal) × List String → List (String × PyVal) × List String
  | [], st => st
  | (key, value) :: rest, (nk, used) =>
    if (alookup nk key).isSome then defaultsLoop rest (nk, used)
    else defaultsLoop rest (dictSet nk key value, used ++ [key])

/-- The ignore loop of new_init (source lines 281 to 283): pop every
ignored key that is present. -/
def ignoreLoop : List String → List (String × PyVal) → List (String × PyVal)
  | [], nk => nk
  | key :: rest, nk =>
    ignoreLoop rest (if (alookup nk key).isSome then removeKey nk key else nk)

/-- Outcome of one call to the initializer produced by deprecated_init:
the warnings emitted, in order, and the keyword arguments passed on to
super_init_func. The source calls super_init_func(self, **new_kwargs),
so beyond the receiver only keywords are ever passed. -/
structure InitCall where
  warnings : List String
  superKwargs : List (String × PyVal)

/-- Stages of new_init after the positional step: merge explicit keywords
over the positional-derived dict, run the alias and defaults loops with
their warnings, and remove ignored keys. -/
def makeCall (deprecated_aliases : List (String × String))
    (deprecated_defaults : List (String × PyVal)) (ignore : List String)
    (st1 : List String × List (String × PyVal))
    (kwargs : List (String × PyVal)) : InitCall :=
  let nk1 := dictUpdate st1.2 kwargs
  let st2 := aliasLoop deprecated_aliases (nk1, [])
  let w2 := if st2.2 = [] then [] else [aliasWarning deprecated_aliases st2.2]
  let st3 := defaultsLoop deprecated_defaults (st2.1, [])
  let w3 := if st3.2 = [] then [] else [defaultsWarning deprecated_defaults st3.2]
  { warnings := st1.1 ++ w2 ++ w3,
    superKwargs := ignoreLoop ignore st3.1 }

/-- The initializer produced by deprecated_init (source lines 236 to 285),
as a function of the call arguments: it returns the warnings emitted and
the keyword-only call made to super_init_func. -/
def new_init (arg_names ignore : List String)
    (deprecated_aliases : List (String × String))
    (deprecated_defaults : List (String × PyVal))
    (args : List PyVal) (kwargs : List (String × PyVal)) : InitCall :=
  makeCall deprecated_aliases deprecated_defaults ignore
    (positionalStage arg_names args) kwargs

/-- C4: with ordered_arg_names a, b, alias x mapped from old_x and default
y = 1, the call with positionals (10, 20) and keyword old_x = 5 invokes
the canonical initializer with exactly the keywords a:10, b:20, x:5, y:1
and no positionals beyond the receiver, and fires the positional-use
warning naming a, b, the alias-use warning naming old_x in favor of x,
and the default-use warning naming y=1, in that order. -/
theorem deprecated_init_concrete_scenario :
    new_init ["a", "b"] [] [("x", "old_x")] [("y", PyVal.pyint 1)]
        [PyVal.pyint 10, PyVal.pyint 20] [("old_x", PyVal.pyint 5)]
      = { warnings := [positionalWarning ["a", "b"],
                       aliasWarning [("x", "old_x")] ["x"],
                       defaultsWarning [("y", PyVal.pyint 1)] ["y"]],
          superKwargs := [("a", PyVal.pyint 10), ("b", PyVal.pyint 20),
                          ("x", PyVal.pyint 5), ("y", PyVal.pyint 1)] } := rfl

theorem take_of_length_le {α : Type} (l : List α) (n : Nat) (h : l.length ≤ n) :
    l.take n = l := by
  induction l generalizing n with
  | nil => simp
  | cons a t ih =>
    cases n with
    | zero => simp at h
    | succ m =>
      simp only [List.take_succ_cons, List.cons.injEq, true_and]
      exact ih m (by simpa using h)

theorem zip_take_length {α β : Type} (l1 : List α) (l2 : List β) :
    l1.zip (l2.take l1.length) = l1.zip l2 := by
  induction l1 generalizing l2 with
  | nil => simp
  | cons a t ih =>
    cases l2 with
    | nil => simp
    | cons b u =>
      simp only [List.length_cons, List.take_succ_cons, List.zip_cons_cons,
        List.cons.injEq, true_and]
      exact ih u

theorem positionalStage_take (arg_names : List String) (args : List PyVal)
    (h1 : arg_names ≠ []) (h2 : arg_names.length < args.length) :
    positionalStage arg_names (args.take arg_names.length)
      = positionalStage arg_names args := by
  obtain ⟨s, ss, rfl⟩ : ∃ s ss, arg_names = s :: ss := by
    cases arg_names with
    | nil => exact absurd rfl h1
    | cons s ss => exact ⟨s, ss, rfl⟩
  cases args with
  | nil => simp at h2
  | cons a t =>
    have hlen : ss.length < t.length := by
      simpa using h2
    have hw : List.take (List.take ss.length t).length ss = List.take t.length ss := by
      rw [List.length_take, Nat.min_eq_left (Nat.le_of_lt hlen),
        take_of_length_le ss ss.length (Nat.le_refl _),
        take_of_length_le ss t.length (Nat.le_of_lt hlen)]
    have hz : (s :: ss).zip (a :: List.take ss.length t) = (s :: ss).zip (a :: t) := by
      have h := zip_take_length (s :: ss) (a :: t)
      simpa using h
    simp only [List.length_cons, List.take_succ_cons, positionalStage, hw, hz]

/-- C10: called with more positionals than there are names in
ordered_arg_names, the surplus positionals are silently discarded: the
whole call behaves exactly as if only the first len(arg_names)
positionals had been passed (the zip truncates, so the surplus values
never reach the canonical initializer and nothing is raised), and the
positional-use warning names exactly the names in arg_names. -/
theorem deprecated_init_surplus_positionals
    (arg_names ignore : List String) (deprecated_aliases : List (String × String))
    (deprecated_defaults : List (String × PyVal)) (args : List PyVal)
    (kwargs : List (String × PyVal))
    (h1 : arg_names ≠ []) (h2 : arg_names.length < args.length) :
    new_init arg_names ignore deprecated_aliases deprecated_defaults args kwargs
      = new_init arg_names ignore deprecated_aliases deprecated_defaults
          (args.take arg_names.length) kwargs
    ∧ (new_init arg_names ignore deprecated_aliases deprecated_defaults
        args kwargs).warnings.head? = some (positionalWarning arg_names) := by
  constructor
  · unfold new_init
    rw [positionalStage_take arg_names args h1 h2]
  · obtain ⟨a, t, rfl⟩ : ∃ a t, args = a :: t := by
      cases args with
      | nil => simp at h2
      | cons a t => exact ⟨a, t, rfl⟩
    have htake : arg_names.take (a :: t).length = arg_names :=
      take_of_length_le _ _ (Nat.le_of_lt h2)
    show (makeCall _ _ _ (positionalStage arg_names (a :: t)) _).warnings.head? = _
    simp only [positionalStage, htake, makeCall]
    rfl

/-- Witness for C10 with one argument name and two positionals. -/
theorem deprecated_init_surplus_positionals_witness :
    (["a"] : List String) ≠ []
    ∧ (["a"] : List String).length < [PyVal.pyint 1, PyVal.pyint 2].length
    ∧ (new_init ["a"] [] [] [] [PyVal.pyint 1, PyVal.pyint 2] []
        = new_init ["a"] [] [] [] ([PyVal.pyint 1, PyVal.pyint 2].take 1) []
      ∧ (new_init ["a"] [] [] [] [PyVal.pyint 1, PyVal.pyint 2] []).warnings.head?
        = some (positionalWarning ["a"])) :=
  ⟨by decide, by decide,
   deprecated_init_surplus_positionals ["a"] [] [] [] [PyVal.pyint 1, PyVal.pyint 2]
     [] (by decide) (by decide)⟩

/-! ## Proxy module, deprecation descriptors and the loader
(source lines 20 to 143) -/

/-- An object held by an override or introspection module. Its identity is
a number; moduleAttr models its dunder module string, with Option.none
standing for an object on which reading that attribute raises
AttributeError (the try/except at source lines 122 to 126). -/
structure Item where
  ident : Nat
  moduleAttr : Option String
  deriving DecidableEq

/-- The introspection module wrapped by a proxy: its attributes, and its
dir() listing. -/
structure IntroModule where
  attrs : List (String × Item)
  dirNames : List String
  deriving DecidableEq

/-- A DeprecatedAttribute descriptor instance (source lines 45 to 73):
the attribute name, the frozen value, and the precomputed warning text. -/
structure DeprDescriptor where
  attr : String
  value : Item
  warning : String
  deriving DecidableEq

/-- Construction of a DeprecatedAttribute descriptor (source lines 52 to
57), with its warning text from the source format string. -/
def mkDeprecatedAttribute (ns attr : String) (value : Item)
    (replacement : String) : DeprDescriptor :=
  { attr := attr, value := value,
    warning := ns ++ "." ++ attr ++ " is deprecated; use " ++ replacement
      ++ " instead" }

/-- State of one proxy module: the dictionary of its per-namespace type
(holding only the installed deprecation descriptors) and its instance
dictionary (the attributes transplanted from the override). The proxy
bookkeeping entries that ModuleType and the proxy initializer create are
outside the modelled attribute set. -/
structure ProxyState where
  typeDict : List (String × DeprDescriptor)
  instDict : List (String × Item)
  deriving DecidableEq

/-- Result of an attribute read: the value found together with the
deprecation warnings emitted by the read, or AttributeError. -/
inductive GetResult where
  | found (value : Item) (warns : List String)
  | attrError
  deriving DecidableEq

/-- Raw attribute read on the introspection module. -/
def introGetattr (im : IntroModule) (name : String) : GetResult :=
  match alookup im.attrs name with
  | some v => .found v []
  | Option.none => .attrError

/-- getattr on the proxy: a data descriptor on the proxy type wins and
emits its warning (source lines 59 to 63); otherwise the instance
dictionary; otherwise the dunder getattr fallback to the introspection
module (source lines 32 to 33). -/
def proxyGetattr (p : ProxyState) (im : IntroModule) (name : String) : GetResult :=
  match alookup p.typeDict name with
  | some d => .found d.value [d.warning]
  | Option.none =>
    match alookup p.instDict name with
    | some v => .found v []
    | Option.none => introGetattr im name

/-- setattr on the proxy: writing through a deprecation descriptor deletes
the descriptor from the type and stores a plain instance attribute
(source lines 65 to 69); otherwise a plain instance write. -/
def proxySetattr (p : ProxyState) (name : String) (v : Item) : ProxyState :=
  match alookup p.typeDict name with
  | some _ =>
    { typeDict := removeKey p.typeDict name,
      instDict := dictSet p.instDict name v }
  | Option.none => { p with instDict := dictSet p.instDict name v }

/-- delattr on the proxy: deleting through a deprecation descriptor
removes it from the type (source lines 71 to 73); otherwise a plain
instance deletion, raising AttributeError when the name is absent. -/
def proxyDelattr (p : ProxyState) (name : String) : Except Unit ProxyState :=
  match alookup p.typeDict name with
  | some _ => .ok { p with typeDict := removeKey p.typeDict name }
  | Option.none =>
    match alookup p.instDict name with
    | some _ => .ok { p with instDict := removeKey p.instDict name }
    | Option.none => .error ()

/-- dir of the proxy type: its inherited names together with the keys of
its own dictionary (the installed descriptors). -/
def classDir (baseClassNames : List String) (p : ProxyState) : List String :=
  baseClassNames ++ p.typeDict.map Prod.fst

/-- An override module as evaluated: its global variables, and the value
of its dunder all export list, modelled as a name list (absent or empty
both yield no exports, matching the source `or` at line 116). Python
None-valued globals are not distinguished from absent ones, matching what
dict.get reports to the assert at line 120. -/
structure OverrideModule where
  vars : List (String × Item)
  allNames : Option (List String)
  deriving DecidableEq

/-- The export list of an override module (source line 116). -/
def overrideAllOf (om : OverrideModule) : List String :=
  match om.allNames with
  | some l => l
  | Option.none => []

/-- An exception escaping the import of the override module. -/
inductive PyErr where
  | importError (msg : String)
  | otherError (msg : String)
  deriving DecidableEq

/-- Outcome of imp.find_module for the namespace under the override root:
the override unit exists (a module file was found), or ImportError. -/
inductive FindOutcome where
  | found
  | notFound
  deriving DecidableEq

/-- An exception escaping load. -/
inductive LoadErr where
  /-- Modelled from the spec: pgi dot compat reraise is not under src;
  per the spec, an override unit that exists but raised during its own
  evaluation has that failure propagated unchanged to the caller of load
  (source line 112). -/
  | reraised (err : PyErr)
  /-- AssertionError, with its message (empty for a bare assert). -/
  | assertionError (msg : String)
  /-- AttributeError escaping the delattr at source line 137. -/
  | attributeError
  deriving DecidableEq

/-- What load returns on success: the passed-in module object itself, or
the assembled proxy. -/
inductive LoadResult where
  | originalModule
  | proxyResult (p : ProxyState)
  deriving DecidableEq

/-- An entry of the module registry (sys.modules), relative to one load
call: the exact module object passed to load, the proxy created by this
load, or some other module object. -/
inductive SysEntry where
  | orig
  | proxyE
  | otherModule (n : Nat)
  deriving DecidableEq

/-- Process-wide state touched by load: the module registry and the
deprecation registry (namespace to list of attribute and replacement
pairs). -/
structure LoadState where
  sysModules : List (String × SysEntry)
  deprecatedAttrs : List (String × List (String × String))
  deriving DecidableEq

/-- Result and state after a call to load, with the deprecation warnings
it emitted while reading attributes. -/
structure LoadOutcome where
  result : Except LoadErr LoadResult
  state : LoadState
  warns : List String

/-- Registration of deprecated module attributes, deprecated_attr at
source lines 186 to 203: append to the per-namespace registry entry. -/
def deprecated_attr (registry : List (String × List (String × String)))
    (ns attr replacement : String) : List (String × List (String × String)) :=
  dictSet registry ns (((alookup registry ns).getD []) ++ [(attr, replacement)])

/-- The registration loop of load (source lines 94 to 95 and 106 to 107):
set the entry for every alias root joined with the namespace. -/
def registerAll : List String → String → SysEntry →
    List (String × SysEntry) → List (String × SysEntry)
  | [], _, _, sys => sys
  | root :: rest, ns, e, sys =>
    registerAll rest ns e (dictSet sys (root ++ "." ++ ns) e)

/-- Cosmetic dunder module normalization of a transplanted object (source
lines 121 to 126); AttributeError on the read is passed over. -/
def normalizeModuleAttr (ns : String) (it : Item) : Item :=
  match it.moduleAttr with
  | Option.none => it
  | some m =>
    if (m.splitOn ".").getLastD "" = ns then { it with moduleAttr := some ns }
    else it

/-- The export transplant loop of load (source lines 118 to 127): every
name in the export list must resolve in the override module (assert at
line 120, message empty for the bare assert), and the resolved object is
set on the proxy. -/
def transplantAll (ns : String) (vars : List (String × Item)) :
    List String → ProxyState → Except LoadErr ProxyState
  | [], p => .ok p
  | var :: rest, p =>
    match alookup vars var with
    | Option.none => .error (.assertionError "")
    | some item =>
      transplantAll ns vars rest (proxySetattr p var (normalizeModuleAttr ns item))

/-- The deprecated-attribute installation loop of load (source lines 131
to 140): read each registered attribute off the proxy (AssertionError
when missing), delete it from the proxy, and install a descriptor on the
proxy type. The second component collects warnings emitted by the reads. -/
def installDeprecated (ns : String) (im : IntroModule) :
    List (String × String) → ProxyState →
    Except LoadErr ProxyState × List String
  | [], p => (.ok p, [])
  | (attr, replacement) :: rest, p =>
    match proxyGetattr p im attr with
    | .attrError =>
      (.error (.assertionError
        (attr ++ " was set deprecated but wasn\x27t added to __all__")), [])
    | .found value ws =>
      match proxyDelattr p attr with
      | .error _ => (.error .attributeError, ws)
      | .ok p2 =>
        let d := mkDeprecatedAttribute ns attr value replacement
        let res := installDeprecated ns im rest
          { p2 with typeDict := dictSet p2.typeDict attr d }
        (res.1, ws ++ res.2)

/-- The loader, load at source lines 83 to 142. aliasRoots models
const.PREFIX (not under src; per the spec these are the supported alias
prefixes of the module registry). importRes is the outcome of importing
the override unit; findRes the outcome of imp.find_module, consulted only
when the import raised. A fresh proxy with an empty per-namespace type is
created and registered under every alias root; an absent override reverts
the registrations to the passed module and returns it; an override that
raised has the failure propagated; otherwise the export list is
transplanted onto the proxy, the deprecation registry entry for the
namespace is popped, descriptors are installed, and the proxy is
returned. -/
def load (aliasRoots : List String) (ns : String) (im : IntroModule)
    (importRes : Except PyErr OverrideModule) (findRes : FindOutcome)
    (st : LoadState) : LoadOutcome :=
  let sys1 := registerAll aliasRoots ns .proxyE st.sysModules
  match importRes with
  | .error err =>
    match findRes with
    | .notFound =>
      { result := .ok .originalModule,
        state := { st with sysModules := registerAll aliasRoots ns .orig sys1 },
        warns := [] }
    | .found =>
      { result := .error (.reraised err),
        state := { st with sysModules := sys1 },
        warns := [] }
  | .ok om =>
    match transplantAll ns om.vars (overrideAllOf om) { typeDict := [], instDict := [] } with
    | .error e =>
      { result := .error e,
        state := { st with sysModules := sys1 },
        warns := [] }
    | .ok p1 =>
      let pairs := (alookup st.deprecatedAttrs ns).getD []
      let reg2 := removeKey st.deprecatedAttrs ns
      match installDeprecated ns im pairs p1 with
      | (.error e, ws) =>
        { result := .error e,
          state := { sysModules := sys1, deprecatedAttrs := reg2 },
          warns := ws }
      | (.ok p2, ws) =>
        { result := .ok (.proxyResult p2),
          state := { sysModules := sys1, deprecatedAttrs := reg2 },
          warns := ws }

theorem alookup_registerAll_preserved (roots : List String) (ns : String)
    (e : SysEntry) (sys : List (String × SysEntry)) (k : String)
    (h : alookup sys k = some e) :
    alookup (registerAll roots ns e sys) k = some e := by
  induction roots generalizing sys with
  | nil => simpa [registerAll] using h
  | cons r rest ih =>
    simp only [registerAll]
    apply ih
    by_cases hk : k = r ++ "." ++ ns
    · subst hk
      exact alookup_dictSet_self ..
    · rw [alookup_dictSet_ne _ _ _ _ hk]
      exact h

theorem alookup_registerAll_mem (roots : List String) (ns : String)
    (e : SysEntry) (sys : List (String × SysEntry)) (root : String)
    (h : root ∈ roots) :
    alookup (registerAll roots ns e sys) (root ++ "." ++ ns) = some e := by
  induction roots generalizing sys with
  | nil => cases h
  | cons r rest ih =>
    simp only [registerAll]
    rcases List.mem_cons.mp h with h1 | h2
    · subst h1
      exact alookup_registerAll_preserved _ _ _ _ _ (alookup_dictSet_self ..)
    · exact ih _ h2

/-- Reduction of load on a successfully imported override, unfolding
the branch of a successful import. -/
theorem load_ok_eq (aliasRoots : List String) (ns : String) (im : IntroModule)
    (om : OverrideModule) (findRes : FindOutcome) (st : LoadState) :
    load aliasRoots ns im (.ok om) findRes st
      = match transplantAll ns om.vars (overrideAllOf om) ⟨[], []⟩ with
        | .error e =>
          { result := .error e,
            state := { st with
              sysModules := registerAll aliasRoots ns .proxyE st.sysModules },
            warns := [] }
        | .ok p1 =>
          match installDeprecated ns im ((alookup st.deprecatedAttrs ns).getD [])
              p1 with
          | (.error e, ws) =>
            { result := .error e,
              state := ⟨registerAll aliasRoots ns .proxyE st.sysModules,
                removeKey st.deprecatedAttrs ns⟩,
              warns := ws }
          | (.ok p2, ws) =>
            { result := .ok (.proxyResult p2),
              state := ⟨registerAll aliasRoots ns .proxyE st.sysModules,
                removeKey st.deprecatedAttrs ns⟩,
              warns := ws } := rfl

/-- Reduction of load when the export transplant fails. -/
theorem load_transplant_error_eq (aliasRoots : List String) (ns : String)
    (im : IntroModule) (om : OverrideModule) (findRes : FindOutcome)
    (st : LoadState) (e : LoadErr)
    (htr : transplantAll ns om.vars (overrideAllOf om) ⟨[], []⟩ = .error e) :
    load aliasRoots ns im (.ok om) findRes st
      = { result := .error e,
          state := { st with
            sysModules := registerAll aliasRoots ns .proxyE st.sysModules },
          warns := [] } := by
  conv_lhs => rw [load_ok_eq, htr]

/-- Reduction of load when the export transplant succeeds. -/
theorem load_transplant_ok_eq (aliasRoots : List String) (ns : String)
    (im : IntroModule) (om : OverrideModule) (findRes : FindOutcome)
    (st : LoadState) (p1 : ProxyState)
    (htr : transplantAll ns om.vars (overrideAllOf om) ⟨[], []⟩ = .ok p1) :
    load aliasRoots ns im (.ok om) findRes st
      = match installDeprecated ns im ((alookup st.deprecatedAttrs ns).getD [])
            p1 with
        | (.error e, ws) =>
          { result := .error e,
            state := ⟨registerAll aliasRoots ns .proxyE st.sysModules,
              removeKey st.deprecatedAttrs ns⟩,
            warns := ws }
        | (.ok p2, ws) =>
          { result := .ok (.proxyResult p2),
            state := ⟨registerAll aliasRoots ns .proxyE st.sysModules,
              removeKey st.deprecatedAttrs ns⟩,
            warns := ws } := by
  conv_lhs => rw [load_ok_eq, htr]

/-- C1: for a namespace with no override unit (the import raised and
imp.find_module raised ImportError), load returns the exact original
module object, and every alias root entry of the module registry is
reverted from the proxy back to that original module. -/
theorem load_no_override_returns_original
    (aliasRoots : List String) (ns : String) (im : IntroModule)
    (err : PyErr) (st : LoadState) :
    (load aliasRoots ns im (.error err) .notFound st).result = .ok .originalModule
    ∧ ∀ root ∈ aliasRoots,
        alookup (load aliasRoots ns im (.error err) .notFound st).state.sysModules
          (root ++ "." ++ ns) = some .orig := by
  constructor
  · rfl
  · intro root hroot
    exact alookup_registerAll_mem _ _ _ _ _ hroot

/-- Witness for C1 with the two alias roots of pgi and namespace Gtk. -/
theorem load_no_override_returns_original_witness :
    "gi.repository" ∈ ["pgi.repository", "gi.repository"]
    ∧ (load ["pgi.repository", "gi.repository"] "Gtk" ⟨[], []⟩
        (.error (.importError "No module named Gtk")) .notFound ⟨[], []⟩).result
        = .ok .originalModule
    ∧ alookup (load ["pgi.repository", "gi.repository"] "Gtk" ⟨[], []⟩
        (.error (.importError "No module named Gtk")) .notFound
        ⟨[], []⟩).state.sysModules ("gi.repository" ++ "." ++ "Gtk")
        = some .orig :=
  ⟨by decide,
   (load_no_override_returns_original ["pgi.repository", "gi.repository"] "Gtk"
     ⟨[], []⟩ (.importError "No module named Gtk") ⟨[], []⟩).1,
   (load_no_override_returns_original ["pgi.repository", "gi.repository"] "Gtk"
     ⟨[], []⟩ (.importError "No module named Gtk") ⟨[], []⟩).2
     "gi.repository" (by decide)⟩

/-- C2: for a namespace whose override unit exists (imp.find_module
succeeds) but whose evaluation raised, load propagates that failure,
carrying the original error unchanged, and never takes the
absent-override fallback. -/
theorem load_override_failure_propagates
    (aliasRoots : List String) (ns : String) (im : IntroModule)
    (err : PyErr) (st : LoadState) :
    (load aliasRoots ns im (.error err) .found st).result
      = .error (.reraised err) := rfl

/-- C5: for a deprecation descriptor installed on the proxy type, a read
through the proxy returns the frozen value and emits exactly its one
warning; a write deletes the descriptor from the type and stores the new
value as a plain instance attribute, after which a read returns the new
value with no warning; a delete removes the descriptor from the type,
after which a read behaves exactly as the raw read on the introspection
module (its value, or AttributeError). -/
theorem deprecated_attribute_lifecycle
    (p : ProxyState) (im : IntroModule) (attr : String) (d : DeprDescriptor)
    (v : Item)
    (hd : alookup p.typeDict attr = some d)
    (hi : alookup p.instDict attr = Option.none) :
    proxyGetattr p im attr = .found d.value [d.warning]
    ∧ alookup (proxySetattr p attr v).typeDict attr = Option.none
    ∧ alookup (proxySetattr p attr v).instDict attr = some v
    ∧ proxyGetattr (proxySetattr p attr v) im attr = .found v []
    ∧ ∃ p2, proxyDelattr p attr = .ok p2
        ∧ alookup p2.typeDict attr = Option.none
        ∧ proxyGetattr p2 im attr = introGetattr im attr := by
  have hset : proxySetattr p attr v
      = { typeDict := removeKey p.typeDict attr,
          instDict := dictSet p.instDict attr v } := by
    unfold proxySetattr
    rw [hd]
  refine ⟨?_, ?_, ?_, ?_, ?_⟩
  · unfold proxyGetattr
    rw [hd]
  · rw [hset]
    exact alookup_removeKey_self ..
  · rw [hset]
    exact alookup_dictSet_self ..
  · rw [hset]
    unfold proxyGetattr
    simp [alookup_removeKey_self, alookup_dictSet_self]
  · refine ⟨{ p with typeDict := removeKey p.typeDict attr }, ?_, ?_, ?_⟩
    · unfold proxyDelattr
      rw [hd]
    · exact alookup_removeKey_self ..
    · unfold proxyGetattr
      simp [alookup_removeKey_self, hi]

/-- Witness for C5 on a one-descriptor proxy over a one-attribute
introspection module. -/
theorem deprecated_attribute_lifecycle_witness :
    alookup (ProxyState.mk
        [("version", mkDeprecatedAttribute "Gtk" "version" ⟨1, Option.none⟩
          "Gtk.get_version")] []).typeDict "version"
      = some (mkDeprecatedAttribute "Gtk" "version" ⟨1, Option.none⟩
          "Gtk.get_version")
    ∧ alookup (ProxyState.mk
        [("version", mkDeprecatedAttribute "Gtk" "version" ⟨1, Option.none⟩
          "Gtk.get_version")] []).instDict "version" = Option.none
    ∧ (proxyGetattr (ProxyState.mk
        [("version", mkDeprecatedAttribute "Gtk" "version" ⟨1, Option.none⟩
          "Gtk.get_version")] []) ⟨[("version", ⟨2, Option.none⟩)], []⟩ "version"
      = .found (mkDeprecatedAttribute "Gtk" "version" ⟨1, Option.none⟩
          "Gtk.get_version").value
          [(mkDeprecatedAttribute "Gtk" "version" ⟨1, Option.none⟩
            "Gtk.get_version").warning]
    ∧ alookup (proxySetattr (ProxyState.mk
        [("version", mkDeprecatedAttribute "Gtk" "version" ⟨1, Option.none⟩
          "Gtk.get_version")] []) "version" ⟨3, Option.none⟩).typeDict "version"
        = Option.none
    ∧ alookup (proxySetattr (ProxyState.mk
        [("version", mkDeprecatedAttribute "Gtk" "version" ⟨1, Option.none⟩
          "Gtk.get_version")] []) "version" ⟨3, Option.none⟩).instDict "version"
        = some ⟨3, Option.none⟩
    ∧ proxyGetattr (proxySetattr (ProxyState.mk
        [("version", mkDeprecatedAttribute "Gtk" "version" ⟨1, Option.none⟩
          "Gtk.get_version")] []) "version" ⟨3, Option.none⟩)
        ⟨[("version", ⟨2, Option.none⟩)], []⟩ "version" = .found ⟨3, Option.none⟩ []
    ∧ ∃ p2, proxyDelattr (ProxyState.mk
        [("version", mkDeprecatedAttribute "Gtk" "version" ⟨1, Option.none⟩
          "Gtk.get_version")] []) "version" = .ok p2
        ∧ alookup p2.typeDict "version" = Option.none
        ∧ proxyGetattr p2 ⟨[("version", ⟨2, Option.none⟩)], []⟩ "version"
          = introGetattr ⟨[("version", ⟨2, Option.none⟩)], []⟩ "version") :=
  ⟨rfl, rfl,
   deprecated_attribute_lifecycle
     (ProxyState.mk
       [("version", mkDeprecatedAttribute "Gtk" "version" ⟨1, Option.none⟩
         "Gtk.get_version")] [])
     ⟨[("version", ⟨2, Option.none⟩)], []⟩ "version"
     (mkDeprecatedAttribute "Gtk" "version" ⟨1, Option.none⟩ "Gtk.get_version")
     ⟨3, Option.none⟩ rfl rfl⟩

/-- Decision of whether an Except value is a success. -/
def isOkE {ε α : Type} : Except ε α → Bool
  | .ok _ => true
  | .error _ => false

/-- C7: when load of a namespace with a successfully evaluated override
returns normally, the deprecation registry entry for that namespace has
been removed (popped), so a subsequent lookup of the namespace in the
registry finds nothing. -/
theorem load_drains_deprecation_registry
    (aliasRoots : List String) (ns : String) (im : IntroModule)
    (om : OverrideModule) (findRes : FindOutcome) (st : LoadState)
    (h : isOkE (load aliasRoots ns im (.ok om) findRes st).result = true) :
    alookup (load aliasRoots ns im (.ok om) findRes st).state.deprecatedAttrs ns
      = Option.none := by
  rcases htr : transplantAll ns om.vars (overrideAllOf om) ⟨[], []⟩ with e | p1
  · rw [load_transplant_error_eq aliasRoots ns im om findRes st e htr] at h
    exact Bool.noConfusion h
  · rw [load_transplant_ok_eq aliasRoots ns im om findRes st p1 htr]
    rcases hinst : installDeprecated ns im ((alookup st.deprecatedAttrs ns).getD [])
        p1 with ⟨r, ws⟩
    cases r <;> exact alookup_removeKey_self ..

/-- Witness for C7: a registry holding one entry for the namespace is
drained by a successful load. -/
theorem load_drains_deprecation_registry_witness :
    isOkE (load ["gi.repository"] "Gtk" ⟨[], []⟩
      (.ok ⟨[("STOCK_OK", ⟨4, Option.none⟩)], some ["STOCK_OK"]⟩) .found
      ⟨[], deprecated_attr [] "Gtk" "STOCK_OK" "Gtk.Stock.OK"⟩).result = true
    ∧ alookup (load ["gi.repository"] "Gtk" ⟨[], []⟩
      (.ok ⟨[("STOCK_OK", ⟨4, Option.none⟩)], some ["STOCK_OK"]⟩) .found
      ⟨[], deprecated_attr [] "Gtk" "STOCK_OK" "Gtk.Stock.OK"⟩).state.deprecatedAttrs
      "Gtk" = Option.none :=
  ⟨rfl,
   load_drains_deprecation_registry ["gi.repository"] "Gtk" ⟨[], []⟩
     ⟨[("STOCK_OK", ⟨4, Option.none⟩)], some ["STOCK_OK"]⟩ .found
     ⟨[], deprecated_attr [] "Gtk" "STOCK_OK" "Gtk.Stock.OK"⟩ rfl⟩

theorem proxyGetattr_attrError_iff (p : ProxyState) (im : IntroModule)
    (k : String) :
    proxyGetattr p im k = .attrError
      ↔ alookup p.typeDict k = Option.none
        ∧ alookup p.instDict k = Option.none
        ∧ alookup im.attrs k = Option.none := by
  cases h1 : alookup p.typeDict k with
  | some d => simp [proxyGetattr, h1]
  | none =>
    cases h2 : alookup p.instDict k with
    | some v => simp [proxyGetattr, h1, h2]
    | none =>
      cases h3 : alookup im.attrs k with
      | some w => simp [proxyGetattr, introGetattr, h1, h2, h3]
      | none => simp [proxyGetattr, introGetattr, h1, h2, h3]

theorem transplantAll_missing (ns : String) (vars : List (String × Item)) :
    ∀ (names : List String) (p : ProxyState),
      (∃ v, v ∈ names ∧ alookup vars v = Option.none) →
      transplantAll ns vars names p = .error (.assertionError "") := by
  intro names
  induction names with
  | nil =>
    rintro p ⟨v, hv, _⟩
    cases hv
  | cons n rest ih =>
    rintro p ⟨v, hv, hl⟩
    cases hn : alookup vars n with
    | none => simp [transplantAll, hn]
    | some item =>
      have hvr : v ∈ rest := by
        rcases List.mem_cons.mp hv with h1 | h1
        · subst h1
          rw [hn] at hl
          cases hl
        · exact h1
      simp only [transplantAll, hn]
      exact ih _ ⟨v, hvr, hl⟩

theorem proxyDelattr_deletable (p : ProxyState) (a : String)
    (h : (alookup p.instDict a).isSome = true
      ∨ (alookup p.typeDict a).isSome = true) :
    ∃ p2, proxyDelattr p a = .ok p2
      ∧ (∀ k, k ≠ a → alookup p2.typeDict k = alookup p.typeDict k)
      ∧ (∀ k, k ≠ a → alookup p2.instDict k = alookup p.instDict k) := by
  cases ht : alookup p.typeDict a with
  | some d =>
    refine ⟨{ p with typeDict := removeKey p.typeDict a }, ?_, ?_, ?_⟩
    · unfold proxyDelattr
      rw [ht]
    · intro k hk
      exact alookup_removeKey_ne _ _ _ hk
    · intro k hk
      rfl
  | none =>
    cases hi : alookup p.instDict a with
    | some v =>
      refine ⟨{ p with instDict := removeKey p.instDict a }, ?_, ?_, ?_⟩
      · unfold proxyDelattr
        rw [ht, hi]
      · intro k hk
        rfl
      · intro k hk
        exact alookup_removeKey_ne _ _ _ hk
    | none =>
      exfalso
      rcases h with h | h <;> simp [ht, hi] at h

theorem installDeprecated_missing (ns : String) (im : IntroModule) :
    ∀ (pairs : List (String × String)) (p : ProxyState) (attr : String),
      (∃ repl, (attr, repl) ∈ pairs) →
      proxyGetattr p im attr = .attrError →
      (∀ pr ∈ pairs, pr.1 ≠ attr →
        ((alookup p.instDict pr.1).isSome = true
         ∨ (alookup p.typeDict pr.1).isSome = true)) →
      ∃ msg, (installDeprecated ns im pairs p).1 = .error (.assertionError msg) := by
  intro pairs
  induction pairs with
  | nil =>
    rintro p attr ⟨repl, hmem⟩ _ _
    cases hmem
  | cons hd rest ih =>
    obtain ⟨a, r⟩ := hd
    rintro p attr ⟨repl, hmem⟩ hget hdel
    cases hga : proxyGetattr p im a with
    | attrError =>
      refine ⟨a ++ " was set deprecated but wasn\x27t added to __all__", ?_⟩
      simp [installDeprecated, hga]
    | found value ws =>
      have hne : a ≠ attr := by
        intro he
        subst he
        rw [hga] at hget
        cases hget
      have hdela : (alookup p.instDict a).isSome = true
          ∨ (alookup p.typeDict a).isSome = true :=
        hdel (a, r) (List.mem_cons_self _ _) hne
      obtain ⟨p2, hp2, hty, hin⟩ := proxyDelattr_deletable p a hdela
      have hmem2 : (attr, repl) ∈ rest := by
        rcases List.mem_cons.mp hmem with h1 | h1
        · rw [Prod.mk.injEq] at h1
          exact absurd h1.1.symm hne
        · exact h1
      have hget3 : proxyGetattr
          (ProxyState.mk (dictSet p2.typeDict a (mkDeprecatedAttribute ns a value r))
            p2.instDict) im attr = .attrError := by
        rw [proxyGetattr_attrError_iff] at hget ⊢
        obtain ⟨g1, g2, g3⟩ := hget
        refine ⟨?_, ?_, g3⟩
        · show alookup (dictSet p2.typeDict a (mkDeprecatedAttribute ns a value r))
            attr = Option.none
          rw [alookup_dictSet_ne _ _ _ _ (Ne.symm hne), hty attr (Ne.symm hne)]
          exact g1
        · show alookup p2.instDict attr = Option.none
          rw [hin attr (Ne.symm hne)]
          exact g2
      have hdel3 : ∀ pr ∈ rest, pr.1 ≠ attr →
          ((alookup (ProxyState.mk
              (dictSet p2.typeDict a (mkDeprecatedAttribute ns a value r))
              p2.instDict).instDict pr.1).isSome = true
           ∨ (alookup (ProxyState.mk
              (dictSet p2.typeDict a (mkDeprecatedAttribute ns a value r))
              p2.instDict).typeDict pr.1).isSome = true) := by
        intro pr hpr hprne
        by_cases hpa : pr.1 = a
        · right
          show (alookup (dictSet p2.typeDict a (mkDeprecatedAttribute ns a value r))
            pr.1).isSome = true
          rw [hpa, alookup_dictSet_self]
          rfl
        · rcases hdel pr (List.mem_cons_of_mem _ hpr) hprne with h | h
          · left
            show (alookup p2.instDict pr.1).isSome = true
            rw [hin pr.1 hpa]
            exact h
          · right
            show (alookup (dictSet p2.typeDict a
              (mkDeprecatedAttribute ns a value r)) pr.1).isSome = true
            rw [alookup_dictSet_ne _ _ _ _ hpa, hty pr.1 hpa]
            exact h
      obtain ⟨msg, hmsg⟩ := ih (ProxyState.mk
          (dictSet p2.typeDict a (mkDeprecatedAttribute ns a value r))
          p2.instDict) attr ⟨repl, hmem2⟩ hget3 hdel3
      refine ⟨msg, ?_⟩
      simp only [installDeprecated, hga, hp2]
      exact hmsg

/-- C6 counterexample: with registry pairs bar then baz for the
namespace, bar present only on the introspection module and baz missing
everywhere, the claim's premise holds for baz (a registered deprecated
attribute missing from the proxy) yet load raises AttributeError from
the deletion of bar, not AssertionError. -/
theorem load_consistency_counterexample :
    ("baz", "r2") ∈ (alookup (LoadState.mk []
        [("Foo", [("bar", "r1"), ("baz", "r2")])]).deprecatedAttrs "Foo").getD []
    ∧ transplantAll "Foo" ([] : List (String × Item))
        (overrideAllOf ⟨[], Option.none⟩) ⟨[], []⟩ = .ok ⟨[], []⟩
    ∧ proxyGetattr ⟨[], []⟩ ⟨[("bar", ⟨0, Option.none⟩)], ["bar"]⟩ "baz"
        = .attrError
    ∧ (load ["gi.repository"] "Foo" ⟨[("bar", ⟨0, Option.none⟩)], ["bar"]⟩
        (.ok ⟨[], Option.none⟩) .found
        ⟨[], [("Foo", [("bar", "r1"), ("baz", "r2")])]⟩).result
        = .error .attributeError
    ∧ ¬ ∃ msg, (load ["gi.repository"] "Foo"
        ⟨[("bar", ⟨0, Option.none⟩)], ["bar"]⟩
        (.ok ⟨[], Option.none⟩) .found
        ⟨[], [("Foo", [("bar", "r1"), ("baz", "r2")])]⟩).result
        = .error (.assertionError msg) := by
  refine ⟨by decide, rfl, rfl, rfl, ?_⟩
  rintro ⟨msg, hm⟩
  rw [show (load ["gi.repository"] "Foo"
      ⟨[("bar", ⟨0, Option.none⟩)], ["bar"]⟩
      (.ok ⟨[], Option.none⟩) .found
      ⟨[], [("Foo", [("bar", "r1"), ("baz", "r2")])]⟩).result
      = .error .attributeError from rfl] at hm
  exact absurd hm (by simp)

/-- C6 amended: during load of a namespace whose override evaluated
successfully, if any name in the export list does not resolve in the
override module, load raises AssertionError; and if an attribute
registered as deprecated is missing from the proxy while every other
registered attribute is deletable from the proxy itself (present as its
own instance or type attribute rather than only through the introspection
fallback), load raises AssertionError rather than skipping the name or
continuing. In the remaining case of a registered attribute readable only
through the fallback, the bind still aborts, but with the AttributeError
of its deletion, as the counterexample shows. -/
theorem load_consistency_error_amended
    (aliasRoots : List String) (ns : String) (im : IntroModule)
    (om : OverrideModule) (findRes : FindOutcome) (st : LoadState)
    (hcase :
      (∃ v, v ∈ overrideAllOf om ∧ alookup om.vars v = Option.none)
      ∨ (∃ p1 attr repl,
          transplantAll ns om.vars (overrideAllOf om) ⟨[], []⟩ = .ok p1
          ∧ (attr, repl) ∈ (alookup st.deprecatedAttrs ns).getD []
          ∧ proxyGetattr p1 im attr = .attrError
          ∧ ∀ pr ∈ (alookup st.deprecatedAttrs ns).getD [], pr.1 ≠ attr →
              ((alookup p1.instDict pr.1).isSome = true
               ∨ (alookup p1.typeDict pr.1).isSome = true))) :
    ∃ msg, (load aliasRoots ns im (.ok om) findRes st).result
      = .error (.assertionError msg) := by
  rcases hcase with ⟨v, hv, hl⟩ | ⟨p1, attr, repl, htr, hmem, hget, hdel⟩
  · have htr := transplantAll_missing ns om.vars (overrideAllOf om) ⟨[], []⟩
      ⟨v, hv, hl⟩
    refine ⟨"", ?_⟩
    rw [load_transplant_error_eq aliasRoots ns im om findRes st _ htr]
  · obtain ⟨msg, hmsg⟩ := installDeprecated_missing ns im
      ((alookup st.deprecatedAttrs ns).getD []) p1 attr ⟨repl, hmem⟩ hget hdel
    refine ⟨msg, ?_⟩
    rw [load_transplant_ok_eq aliasRoots ns im om findRes st p1 htr]
    rcases hinst : installDeprecated ns im ((alookup st.deprecatedAttrs ns).getD [])
        p1 with ⟨r, ws⟩
    rw [hinst] at hmsg
    have hr : r = Except.error (LoadErr.assertionError msg) := hmsg
    subst hr
    rfl

/-- Witness for the amended C6, through an export name that does not
resolve. -/
theorem load_consistency_error_amended_witness :
    (∃ v, v ∈ overrideAllOf ⟨[], some ["missing"]⟩
      ∧ alookup (⟨[], some ["missing"]⟩ : OverrideModule).vars v = Option.none)
    ∧ ∃ msg, (load ["gi.repository"] "Gtk" ⟨[], []⟩
        (.ok ⟨[], some ["missing"]⟩) .found ⟨[], []⟩).result
        = .error (.assertionError msg) :=
  ⟨⟨"missing", by decide, rfl⟩,
   load_consistency_error_amended ["gi.repository"] "Gtk" ⟨[], []⟩
     ⟨[], some ["missing"]⟩ .found ⟨[], []⟩
     (Or.inl ⟨"missing", by decide, rfl⟩)⟩

/-! ## dir of the proxy (source lines 35 to 39) -/

/-- Ordered duplicate-free insertion of a string, used to model the
sorted set built by the dunder dir of the proxy. -/
def insertDedup (s : String) : List String → List String
  | [] => [s]
  | x :: xs =>
    if s < x then s :: x :: xs
    else if s = x then x :: xs
    else x :: insertDedup s xs

/-- Python sorted(set(l)) for a list of strings. -/
def sortedDedup : List String → List String
  | [] => []
  | x :: xs => insertDedup x (sortedDedup xs)

/-- The dunder dir of the proxy: the sorted set union of the proxy class
directory, the instance dictionary keys, and the introspection module
directory. -/
def dirProxy (baseClassNames : List String) (im : IntroModule)
    (p : ProxyState) : List String :=
  sortedDedup (classDir baseClassNames p ++ p.instDict.map Prod.fst ++ im.dirNames)

theorem mem_insertDedup (a s : String) (l : List String) :
    a ∈ insertDedup s l ↔ a = s ∨ a ∈ l := by
  induction l with
  | nil => simp [insertDedup]
  | cons x xs ih =>
    by_cases h1 : s < x
    · simp [insertDedup, h1]
    · by_cases h2 : s = x
      · subst h2
        simp only [insertDedup, if_neg h1, if_pos rfl]
        constructor
        · intro h
          exact Or.inr h
        · rintro (rfl | h)
          · exact List.mem_cons_self _ _
          · exact h
      · simp only [insertDedup, if_neg h1, if_neg h2, List.mem_cons, ih]
        tauto

theorem pairwise_insertDedup (s : String) (l : List String)
    (h : l.Pairwise (· < ·)) : (insertDedup s l).Pairwise (· < ·) := by
  induction l with
  | nil => simp [insertDedup]
  | cons x xs ih =>
    rw [List.pairwise_cons] at h
    obtain ⟨hx, hxs⟩ := h
    by_cases h1 : s < x
    · simp only [insertDedup, if_pos h1]
      rw [List.pairwise_cons]
      constructor
      · intro b hb
        rcases List.mem_cons.mp hb with rfl | hb2
        · exact h1
        · exact lt_trans h1 (hx b hb2)
      · rw [List.pairwise_cons]
        exact ⟨hx, hxs⟩
    · by_cases h2 : s = x
      · simp only [insertDedup, if_neg h1, if_pos h2]
        rw [List.pairwise_cons]
        exact ⟨hx, hxs⟩
      · simp only [insertDedup, if_neg h1, if_neg h2]
        have hxlt : x < s := lt_of_le_of_ne (not_lt.mp h1) (Ne.symm h2)
        rw [List.pairwise_cons]
        constructor
        · intro b hb
          rcases (mem_insertDedup b s xs).mp hb with rfl | hb2
          · exact hxlt
          · exact hx b hb2
        · exact ih hxs

theorem mem_sortedDedup (a : String) (l : List String) :
    a ∈ sortedDedup l ↔ a ∈ l := by
  induction l with
  | nil => simp [sortedDedup]
  | cons x xs ih =>
    simp only [sortedDedup, mem_insertDedup, ih, List.mem_cons]

theorem pairwise_sortedDedup (l : List String) :
    (sortedDedup l).Pairwise (· < ·) := by
  induction l with
  | nil => simp [sortedDedup]
  | cons x xs ih => exact pairwise_insertDedup x _ ih

/-- C8: the dunder dir of a proxy module lists exactly the union of the
proxy class-level names, the proxy instance attribute names, and the
introspection module directory, sorted in ascending order with each name
occurring exactly once. -/
theorem dir_sorted_union (baseClassNames : List String) (im : IntroModule)
    (p : ProxyState) :
    (∀ s, s ∈ dirProxy baseClassNames im p ↔
       (s ∈ classDir baseClassNames p ∨ s ∈ p.instDict.map Prod.fst
        ∨ s ∈ im.dirNames))
    ∧ (dirProxy baseClassNames im p).Pairwise (· < ·)
    ∧ (dirProxy baseClassNames im p).Nodup := by
  refine ⟨?_, pairwise_sortedDedup _, ?_⟩
  · intro s
    rw [dirProxy, mem_sortedDedup]
    simp [List.mem_append, or_assoc]
  · exact (pairwise_sortedDedup _).imp fun h => ne_of_lt h

end PgiOverrides
